import Mathlib

/-!
Verification of the process-runner and source-list helpers of
`script/utils.py` (functions `pexec` and `read_src_list`).

The `pexec` read loop is embedded as a step function over an explicit
schedule of select-iteration deliveries.  Each iteration of the Python
loop reads at most one line from each ready stream and concatenates the
reads into the string `out`; an iteration is modelled by a `Delivery`
record holding the text read from stdout (`so`), the text read from
stderr (`se`), and whether `p.poll()` would report the child as exited
at that iteration.  Suppression patterns are modelled extensionally as
their match predicates `String → Bool` (the semantics of `re.search`
for an arbitrary pattern string lives in Python's external `re`
module); `reSearchLit` below gives the concrete predicate for a
metacharacter-free pattern, for which `re.search` is substring search.
The fixed summary regex `(Errors\:\s\d+,\sWarnings\:\s)(\d+)` is
embedded concretely by `searchSummary`.
-/

/-- Python `\s` on ASCII text: space, tab, newline, carriage return,
vertical tab, form feed. -/
def isPySpace (c : Char) : Bool :=
  c = ' ' || c = '\t' || c = '\n' || c = '\r' || c = Char.ofNat 11 || c = Char.ofNat 12

/-- Python `str.strip()`: remove leading AND trailing whitespace. -/
def pyStrip (s : String) : String :=
  String.mk (((s.toList.dropWhile isPySpace).reverse.dropWhile isPySpace).reverse)

/-- The transformation the spec sentence describes: trimming ONLY
trailing whitespace.  Stated from the spec's words, for comparison with
the source's `str.strip()`. -/
def specTrimTrailing (s : String) : String :=
  String.mk ((s.toList.reverse.dropWhile isPySpace).reverse)

/-- Consume a literal character sequence from the front of a character
list, returning the remainder on success. -/
def consumeLit : List Char → List Char → Option (List Char)
  | [], cs => some cs
  | _ :: _, [] => none
  | l :: ls, c :: cs => if c = l then consumeLit ls cs else none

/-- Python `int()` of a non-empty decimal digit string. -/
def digitsVal (ds : List Char) : Nat :=
  ds.foldl (fun n c => 10 * n + (c.toNat - 48)) 0

/-- Attempt to match the summary regex
`(Errors\:\s\d+,\sWarnings\:\s)(\d+)` anchored at the head of the
character list.  On success returns (group 1, group 2): the text
`Errors:<ws><digits>,<ws>Warnings:<ws>` and the second digit run.
Since `\d+,` can only match a maximal digit run followed by a comma,
and the final `(\d+)` is last in the pattern, greedy matching without
backtracking is exact here. -/
def matchSummaryAt (cs : List Char) : Option (List Char × List Char) :=
  match consumeLit "Errors:".toList cs with
  | none => none
  | some r1 =>
    match r1 with
    | [] => none
    | w1 :: r2 =>
      if isPySpace w1 then
        let d1 := r2.takeWhile Char.isDigit
        let r3 := r2.dropWhile Char.isDigit
        if d1.isEmpty then none else
        match r3 with
        | c2 :: w2 :: r4 =>
          if c2 = ',' && isPySpace w2 then
            match consumeLit "Warnings:".toList r4 with
            | none => none
            | some r5 =>
              match r5 with
              | [] => none
              | w3 :: r6 =>
                if isPySpace w3 then
                  let d2 := r6.takeWhile Char.isDigit
                  if d2.isEmpty then none
                  else some ("Errors:".toList ++ w1 :: d1 ++ c2 :: w2 :: "Warnings:".toList ++ [w3], d2)
                else none
          else none
        | _ => none
      else none

/-- `re.search` for the summary regex: try each start position left to
right, returning the leftmost match. -/
def searchSummary : List Char → Option (List Char × List Char)
  | [] => none
  | c :: cs =>
    match matchSummaryAt (c :: cs) with
    | some r => some r
    | none => searchSummary cs

/-- The `for item in filter: if re.search(item, out): ...; break` loop:
test the patterns in list order, the first match wins. -/
def firstMatch : List (String → Bool) → String → Bool
  | [], _ => false
  | f :: fs, o => if f o then true else firstMatch fs o

/-- Line 66 of `utils.py`: the rewritten summary line
`res.groups()[0] + str(warn - supp_warn_cnt) + ' (Suppressed warnings: ' + str(supp_warn_cnt) + ')'`. -/
def summaryRewrite (g1 : List Char) (d2 : List Char) (cnt : Nat) : String :=
  String.mk g1 ++ toString ((digitsVal d2 : Int) - (cnt : Int)) ++
    " (Suppressed warnings: " ++ toString cnt ++ ")"

/-- Substring containment over character lists. -/
def containsSub : List Char → List Char → Bool
  | pat, [] => pat.isEmpty
  | pat, c :: cs => pat.isPrefixOf (c :: cs) || containsSub pat cs

/-- `re.search(pat, s) is not None` for a pattern string `pat` free of
regex metacharacters: plain substring search. -/
def reSearchLit (pat s : String) : Bool :=
  containsSub pat.toList s.toList

/-- The observable state threaded through the `pexec` read loop:
the in-memory `supp_warn` buffer, the contents of
`suppresed-warnings.log` (`none` while the file has not been written
this run), and the sequence of lines printed to the console. -/
structure RunState where
  supp_warn : List String
  log : Option (List String)
  console : List String
deriving Repr, DecidableEq

/-- One select iteration of the read loop: the text `readline` returned
from stdout (empty when stdout was not ready or is at EOF), likewise
for stderr, and whether `p.poll()` reports the child exited. -/
structure Delivery where
  so : String
  se : String
  exited : Bool
deriving Repr, DecidableEq

/-- The `out` accumulated by lines 44-49: stdout's read followed by
stderr's read. -/
def Delivery.out (d : Delivery) : String := d.so ++ d.se

/-- The body of the read loop (lines 53-73 of `utils.py`) applied to
one non-break iteration's `out`. -/
def pexecStep (fil : List (String → Bool)) (s : RunState) (o : String) : RunState :=
  if o = "" then s
  else
    let mtch := firstMatch fil o
    if fil.isEmpty then
      ⟨s.supp_warn, s.log, s.console ++ [pyStrip o]⟩
    else
      let supp1 := if mtch then s.supp_warn ++ [o] else s.supp_warn
      match searchSummary o.toList with
      | some (g1, d2) =>
        let o2 := summaryRewrite g1 d2 supp1.length
        if mtch then ⟨supp1, some supp1, s.console⟩
        else ⟨supp1, some supp1, s.console ++ [pyStrip o2]⟩
      | none =>
        if mtch then ⟨supp1, s.log, s.console⟩
        else ⟨supp1, s.log, s.console ++ [pyStrip o]⟩

/-- The `while True` read loop (lines 42-77): break when an iteration
read no data and the child has exited, then return `p.poll()` — the
child's exit code, available since the break condition saw it exited.
Returns `none` when the given schedule ends without the break
condition ever holding (the real loop would still be running). -/
def pexecLoop (fil : List (String → Bool)) (exitCode : Int) :
    List Delivery → RunState → RunState × Option Int
  | [], s => (s, none)
  | d :: rest, s =>
    if d.out = "" ∧ d.exited = true then (s, some exitCode)
    else pexecLoop fil exitCode rest (pexecStep fil s d.out)

/-- Initial state: `supp_warn = []`, log file untouched, nothing printed. -/
def initState : RunState := ⟨[], none, []⟩

/-- `pexec` for a child whose select-iteration deliveries are `sched`
and whose exit code is `exitCode`. -/
def pexec (fil : List (String → Bool)) (exitCode : Int) (sched : List Delivery) :
    RunState × Option Int :=
  pexecLoop fil exitCode sched initState

/-- Ghost instrumentation for stream-order statements: the captured
lines of a schedule, each tagged with its origin (`true` = stdout,
`false` = stderr).  Exact for schedules in which no iteration reads
from both streams. -/
def taggedLines (sched : List Delivery) : List (Bool × String) :=
  sched.filterMap fun d =>
    if d.so ≠ "" then some (true, d.so)
    else if d.se ≠ "" then some (false, d.se)
    else none

/-- What the loop prints for a non-suppressed captured line, given the
number of lines suppressed so far. -/
def printedLine (fil : List (String → Bool)) (k : Nat) (o : String) : String :=
  if fil.isEmpty then pyStrip o
  else
    match searchSummary o.toList with
    | some (g1, d2) => pyStrip (summaryRewrite g1 d2 k)
    | none => pyStrip o

/-- Direct recursive description of the console output over a tagged
line sequence, threading the suppressed-so-far count. -/
def procLines (fil : List (String → Bool)) (k : Nat) :
    List (Bool × String) → List (Bool × String)
  | [] => []
  | (t, o) :: rest =>
    if firstMatch fil o then procLines fil (k + 1) rest
    else (t, printedLine fil k o) :: procLines fil k rest

/-- The iterations the loop actually processes: the prefix before the
first iteration satisfying the break condition. -/
def readsPrefix (sched : List Delivery) : List Delivery :=
  sched.takeWhile fun d => !((d.out == "") && d.exited)

/-- Word character of Python `\w` on ASCII text. -/
def isWordChar (c : Char) : Bool := c.isAlphanum || c = '_'

/-- `re.search(r'\$(\w+)', i)`: leftmost `$` that is followed by at
least one word character; group 1 is the maximal word-character run
after it. -/
def searchDollar : List Char → Option String
  | [] => none
  | c :: cs =>
    if c = '$' then
      let w := cs.takeWhile isWordChar
      if w.isEmpty then searchDollar cs else some (String.mk w)
    else searchDollar cs

/-- The two lines `read_src_list` prints for a missing substitution
parameter (lines 164-165 of `utils.py`). -/
def undefParamMsgs (n path : String) : List String :=
  ["E: undefined substitution parameter \"" ++ n ++ "\"", "    File: " ++ path]

/-- The sources loop of `read_src_list` (lines 155-170 of `utils.py`),
taken over the configuration's `sources` entries and the substitution
`parameters` mapping.  The helpers `search_file`, `param_store.read`
and `read_config` that produce these inputs are not part of this
repository, so the loop is parametrised by their results.  `Exit(-2)`
(a name `utils.py` itself does not define) is modelled from the spec:
"a printed error and an immediate abnormal termination" becomes an
`Except.error` carrying the printed messages, so no file list is
returned on that path. -/
def read_src_list (sources : List String) (params : List (String × String))
    (path : String) : Except (List String) (List String) :=
  match sources with
  | [] => .ok []
  | i :: rest =>
    match searchDollar i.toList with
    | some fpath =>
      match params.lookup fpath with
      | some v =>
        if v ≠ "" then
          match read_src_list rest params path with
          | .ok fs => .ok (i.replace ("$" ++ fpath) v :: fs)
          | .error e => .error e
        else read_src_list rest params path
      | none => .error (undefParamMsgs fpath path)
    | none =>
      match read_src_list rest params path with
      | .ok fs => .ok (i :: fs)
      | .error e => .error e

/-- The log contents after one non-suppressed line is processed. -/
def logAfterStep (fil : List (String → Bool)) (s : RunState) (o : String) :
    Option (List String) :=
  if fil.isEmpty then s.log
  else
    match searchSummary o.toList with
    | some _ => some s.supp_warn
    | none => s.log

lemma firstMatch_eq_any (fil : List (String → Bool)) (o : String) :
    firstMatch fil o = fil.any fun f => f o := by
  induction fil with
  | nil => rfl
  | cons f fs ih => by_cases hf : f o <;> simp [firstMatch, hf, ih]

lemma pexecStep_empty_out (fil : List (String → Bool)) (s : RunState) :
    pexecStep fil s "" = s := by
  simp [pexecStep]

lemma pexecStep_matched (fil : List (String → Bool)) (s : RunState) (o : String)
    (h0 : o ≠ "") (hm : firstMatch fil o = true) :
    (pexecStep fil s o).supp_warn = s.supp_warn ++ [o] ∧
      (pexecStep fil s o).console = s.console := by
  match fil with
  | [] => simp [firstMatch] at hm
  | f :: fs =>
    unfold pexecStep
    rcases hss : searchSummary o.toList with _ | ⟨g1, d2⟩ <;>
      simp [h0, hm, hss]

lemma pexecStep_unmatched (fil : List (String → Bool)) (s : RunState) (o : String)
    (h0 : o ≠ "") (hm : firstMatch fil o = false) :
    pexecStep fil s o =
      ⟨s.supp_warn, logAfterStep fil s o,
        s.console ++ [printedLine fil s.supp_warn.length o]⟩ := by
  match fil with
  | [] =>
    simp [pexecStep, logAfterStep, printedLine, h0]
  | f :: fs =>
    unfold pexecStep
    rcases hss : searchSummary o.toList with _ | ⟨g1, d2⟩ <;>
      simp [h0, hm, hss, logAfterStep, printedLine, String.toList] <;>
      simp [String.toList] at hss <;> simp [hss]

/-- C1: a captured line matching some suppression pattern (tested in
list order by `firstMatch`, first match winning) is appended to the
in-memory `supp_warn` buffer and nothing is printed to the console. -/
theorem pexec_suppressed_line (fil : List (String → Bool)) (s : RunState) (o : String)
    (h0 : o ≠ "") (h : ∃ f ∈ fil, f o = true) :
    (pexecStep fil s o).supp_warn = s.supp_warn ++ [o] ∧
      (pexecStep fil s o).console = s.console := by
  have hm : firstMatch fil o = true := by
    rw [firstMatch_eq_any]
    exact List.any_eq_true.mpr h
  exact pexecStep_matched fil s o h0 hm

/-- Witness for C1: a line containing `warning` is suppressed by the
pattern list `["warning"]`: it lands in the buffer and the console
stays empty. -/
theorem pexec_suppressed_line_witness :
    (pexecStep [reSearchLit "warning"] ⟨[], none, []⟩ "some warning here\n").supp_warn =
        ["some warning here\n"] ∧
      (pexecStep [reSearchLit "warning"] ⟨[], none, []⟩ "some warning here\n").console = [] := by
  have h := pexec_suppressed_line [reSearchLit "warning"] ⟨[], none, []⟩
    "some warning here\n" (by decide)
    ⟨reSearchLit "warning", List.mem_cons_self _ _, by decide⟩
  simpa using h

lemma ne_empty_of_searchSummary {o : String} {g1 d2 : List Char}
    (hs : searchSummary o.toList = some (g1, d2)) : o ≠ "" := by
  intro h
  rw [h] at hs
  have hnil : searchSummary "".toList = none := by decide
  rw [hnil] at hs
  exact Option.noConfusion hs

/-- C2 counterexample: with the default empty filter list, a line
matching the summary pattern is NOT rewritten — `utils.py` guards the
whole rewrite block by `if filter:` — so the claim's universal
statement fails: the line is printed verbatim (stripped), not as
`... (Suppressed warnings: 0)`. -/
theorem pexec_summary_rewrite_cex :
    (searchSummary "Errors: 3, Warnings: 5\n".toList).isSome = true ∧
      (pexecStep [] initState "Errors: 3, Warnings: 5\n").console =
        ["Errors: 3, Warnings: 5"] ∧
      ("Errors: 3, Warnings: 5" : String) ≠
        "Errors: 3, Warnings: 5 (Suppressed warnings: 0)" :=
  ⟨by decide, by decide, by decide⟩

/-- C2 (amended): when the filter list is non-empty and the captured
line matches no suppression pattern, a line matching the summary
pattern `Errors: <int>, Warnings: <int>` is reprinted with the warning
count decremented by the number of lines suppressed so far and the
suffix ` (Suppressed warnings: <k>)` appended; the buffer is unchanged. -/
theorem pexec_summary_rewrite (fil : List (String → Bool)) (s : RunState) (o : String)
    (g1 d2 : List Char)
    (hfe : fil.isEmpty = false) (hm : firstMatch fil o = false)
    (hs : searchSummary o.toList = some (g1, d2)) :
    (pexecStep fil s o).console =
        s.console ++ [pyStrip (summaryRewrite g1 d2 s.supp_warn.length)] ∧
      (pexecStep fil s o).supp_warn = s.supp_warn := by
  have h0 : o ≠ "" := ne_empty_of_searchSummary hs
  rw [pexecStep_unmatched fil s o h0 hm]
  simp [String.toList] at hs
  simp [printedLine, hfe, hs]

/-- Witness for C2: the line `Errors: 3, Warnings: 5` arriving after
two suppressed lines is printed exactly as
`Errors: 3, Warnings: 3 (Suppressed warnings: 2)`. -/
theorem pexec_summary_rewrite_witness :
    (pexecStep [reSearchLit "noise"] ⟨["noise a\n", "noise b\n"], none, []⟩
        "Errors: 3, Warnings: 5\n").console =
      ["Errors: 3, Warnings: 3 (Suppressed warnings: 2)"] := by
  have h := pexec_summary_rewrite [reSearchLit "noise"]
    ⟨["noise a\n", "noise b\n"], none, []⟩ "Errors: 3, Warnings: 5\n"
    "Errors: 3, Warnings: ".toList ['5'] rfl (by decide) (by decide)
  exact h.1.trans (by decide)

/-- C3 counterexample: a summary line that itself matches a
suppression pattern is matched by the summary regex, yet nothing is
printed — the rewritten line is suppressed, refuting "never
suppressed". -/
theorem pexec_summary_print_cex :
    (searchSummary "Errors: 1, Warnings: 2\n".toList).isSome = true ∧
      (pexecStep [reSearchLit "Errors"] initState "Errors: 1, Warnings: 2\n").console = [] ∧
      (pexecStep [reSearchLit "Errors"] initState "Errors: 1, Warnings: 2\n").supp_warn =
        ["Errors: 1, Warnings: 2\n"] :=
  ⟨by decide, by decide, by decide⟩

/-- C3 (amended): whenever a summary line is matched (which requires a
non-empty filter list), the whole suppressed-lines buffer accumulated
so far is written to `suppresed-warnings.log`, overwriting any prior
content, one line per record; the rewritten summary line is printed
provided the line did not itself match a suppression pattern (if it
did, it is suppressed like any other matching line). -/
theorem pexec_summary_log (fil : List (String → Bool)) (s : RunState) (o : String)
    (g1 d2 : List Char)
    (hfe : fil.isEmpty = false)
    (hs : searchSummary o.toList = some (g1, d2)) :
    (pexecStep fil s o).log = some (pexecStep fil s o).supp_warn ∧
      (firstMatch fil o = false →
        (pexecStep fil s o).console =
          s.console ++ [pyStrip (summaryRewrite g1 d2 s.supp_warn.length)]) ∧
      (firstMatch fil o = true → (pexecStep fil s o).console = s.console) := by
  have h0 : o ≠ "" := ne_empty_of_searchSummary hs
  match fil with
  | [] => simp at hfe
  | f :: fs =>
    by_cases hm : firstMatch (f :: fs) o <;>
      · unfold pexecStep
        simp [h0, hm, String.toList] at hs ⊢
        simp [hs]

/-- Witness for C3: the suppressed summary line of the counterexample
still triggers the log write: the log now holds the buffer (which
contains that very line). -/
theorem pexec_summary_log_witness :
    (pexecStep [reSearchLit "Errors"] initState "Errors: 1, Warnings: 2\n").log =
      some ["Errors: 1, Warnings: 2\n"] := by
  have h := pexec_summary_log [reSearchLit "Errors"] initState
    "Errors: 1, Warnings: 2\n" "Errors: 1, Warnings: ".toList ['2'] rfl (by decide)
  exact h.1.trans (by decide)

/-- C8 counterexample: the source prints `out.strip()`, which trims
leading whitespace too: the line `  foo\n` is printed as `foo`, not as
the trailing-only-trimmed `  foo` the claim requires. -/
theorem pexec_print_trim_cex :
    (pexecStep [] initState "  foo\n").console = ["foo"] ∧
      specTrimTrailing "  foo\n" = "  foo" ∧
      ("foo" : String) ≠ "  foo" :=
  ⟨by decide, by decide, by decide⟩

/-- C8 (amended): a captured line matching no suppression pattern (and
not matching the summary rewrite pattern when the filter list is
non-empty) is printed immediately, altered only by trimming leading
and trailing whitespace; buffer and log are untouched. -/
theorem pexec_print_unmatched (fil : List (String → Bool)) (s : RunState) (o : String)
    (h0 : o ≠ "") (hm : firstMatch fil o = false)
    (hs : fil.isEmpty = true ∨ searchSummary o.toList = none) :
    pexecStep fil s o = ⟨s.supp_warn, s.log, s.console ++ [pyStrip o]⟩ := by
  rw [pexecStep_unmatched fil s o h0 hm]
  rcases hs with hs | hs
  · simp [logAfterStep, printedLine, hs]
  · have hs' : searchSummary o.data = none := by simpa [String.toList] using hs
    simp [logAfterStep, printedLine, String.toList, hs']

/-- Witness for C8: `  hello \n` is printed as `hello`, with buffer
and log unchanged. -/
theorem pexec_print_unmatched_witness :
    pexecStep [reSearchLit "xyz"] initState "  hello \n" = ⟨[], none, ["hello"]⟩ := by
  have h := pexec_print_unmatched [reSearchLit "xyz"] initState "  hello \n"
    (by decide) (by decide) (Or.inr (by decide))
  exact h.trans (by decide)

/-- C10: the adjusted warning count is exact integer subtraction with
no lower clamp: when the suppressed-so-far count k exceeds the line's
warning count Y, the printed adjusted count Y - k is negative, and the
line printed is the rewrite carrying `toString (Y - k)`. -/
theorem pexec_negative_adjusted (fil : List (String → Bool)) (s : RunState) (o : String)
    (g1 d2 : List Char)
    (hfe : fil.isEmpty = false) (hm : firstMatch fil o = false)
    (hs : searchSummary o.toList = some (g1, d2))
    (hk : (digitsVal d2 : Int) < (s.supp_warn.length : Int)) :
    (pexecStep fil s o).console =
        s.console ++ [pyStrip (summaryRewrite g1 d2 s.supp_warn.length)] ∧
      (digitsVal d2 : Int) - (s.supp_warn.length : Int) < 0 := by
  have h0 : o ≠ "" := ne_empty_of_searchSummary hs
  rw [pexecStep_unmatched fil s o h0 hm]
  simp [String.toList] at hs
  constructor
  · simp [printedLine, hfe, hs]
  · exact sub_neg.mpr hk

/-- Witness for C10: `Errors: 0, Warnings: 1` after three suppressions
is printed as `Errors: 0, Warnings: -2 (Suppressed warnings: 3)`. -/
theorem pexec_negative_adjusted_witness :
    (pexecStep [reSearchLit "noise"] ⟨["a\n", "b\n", "c\n"], none, []⟩
        "Errors: 0, Warnings: 1\n").console =
      ["Errors: 0, Warnings: -2 (Suppressed warnings: 3)"] ∧
      ((1 : Int) - 3 < 0) := by
  have h := pexec_negative_adjusted [reSearchLit "noise"]
    ⟨["a\n", "b\n", "c\n"], none, []⟩ "Errors: 0, Warnings: 1\n"
    "Errors: 0, Warnings: ".toList ['1'] rfl (by decide) (by decide) (by decide)
  exact ⟨h.1.trans (by decide), by decide⟩

lemma pexecLoop_empty_filter (ec : Int) :
    ∀ (sched : List Delivery) (s : RunState),
      (pexecLoop [] ec sched s).fst =
        ⟨s.supp_warn, s.log,
          s.console ++
            ((((readsPrefix sched).map Delivery.out).filter fun o => !(o == "")).map pyStrip)⟩ := by
  intro sched
  induction sched with
  | nil => intro s; simp [pexecLoop, readsPrefix]
  | cons d rest ih =>
    intro s
    by_cases hbr : d.out = "" ∧ d.exited = true
    · have hb : ((d.out == "") && d.exited) = true := by
        simp [hbr.1, hbr.2]
      simp [pexecLoop, hbr, readsPrefix, hb]
    · have hb : (!((d.out == "") && d.exited)) = true := by
        rcases hbr' : (d.out == "") with _ | _
        · simp
        · have : d.out = "" := by simpa using hbr'
          rcases hex : d.exited with _ | _
          · simp
          · exact absurd ⟨this, hex⟩ hbr
      by_cases h0 : d.out = ""
      · rw [pexecLoop]
        simp only [hbr, if_false]
        rw [h0, pexecStep_empty_out, ih]
        have hex : d.exited = false := by
          rcases hx : d.exited with _ | _
          · rfl
          · exact absurd ⟨h0, hx⟩ hbr
        simp [readsPrefix, h0, hex]
      · rw [pexecLoop]
        simp only [hbr, if_false]
        have hstep : pexecStep [] s d.out =
            ⟨s.supp_warn, s.log, s.console ++ [pyStrip d.out]⟩ := by
          rw [pexecStep_unmatched [] s d.out h0 rfl]
          simp [logAfterStep, printedLine]
        rw [hstep, ih]
        have h0b : (d.out == "") = false := by simpa using h0
        simp [readsPrefix, hb, h0b]

/-- C6: with the default empty filter list, no line is ever suppressed
(the buffer stays empty), the suppression log is never touched, and
the rewrite never triggers: the console is exactly the non-empty
captured chunks of the processed prefix, each merely stripped — a
summary line keeps its warning count. -/
theorem pexec_empty_filter (ec : Int) (sched : List Delivery) :
    (pexec [] ec sched).fst.supp_warn = [] ∧
      (pexec [] ec sched).fst.log = none ∧
      (pexec [] ec sched).fst.console =
        ((((readsPrefix sched).map Delivery.out).filter fun o => !(o == "")).map pyStrip) := by
  have h := pexecLoop_empty_filter ec sched initState
  rw [pexec, h]
  simp [initState]

lemma pexecLoop_snd (fil : List (String → Bool)) (ec : Int) :
    ∀ (sched : List Delivery) (s : RunState),
      (pexecLoop fil ec sched s).snd =
        if ∃ d ∈ sched, d.out = "" ∧ d.exited = true then some ec else none := by
  intro sched
  induction sched with
  | nil => intro s; simp [pexecLoop]
  | cons d rest ih =>
    intro s
    by_cases hbr : d.out = "" ∧ d.exited = true
    · simp [pexecLoop, hbr]
    · simp [pexecLoop, hbr, ih]

/-- C4: the read loop ends exactly when an iteration reads no data and
the child has already exited, and `pexec` then returns the child's
exact exit code (it raises nothing on a non-zero code — the code is
surfaced as the return value); in particular a child exiting 0 yields
0 and a child exiting 7 yields 7. -/
theorem pexec_exit_code :
    (∀ (fil : List (String → Bool)) (ec : Int) (sched : List Delivery),
        (pexec fil ec sched).snd =
          if ∃ d ∈ sched, d.out = "" ∧ d.exited = true then some ec else none) ∧
      (pexec [] 0 [⟨"hello\n", "", false⟩, ⟨"", "", true⟩]).snd = some 0 ∧
      (pexec [] 7 [⟨"hello\n", "", false⟩, ⟨"", "", true⟩]).snd = some 7 :=
  ⟨fun fil ec sched => pexecLoop_snd fil ec sched initState, by decide, by decide⟩

lemma pexecStep_log_frame (fil : List (String → Bool)) (s : RunState) (o : String)
    (h : searchSummary o.toList = none) : (pexecStep fil s o).log = s.log := by
  by_cases h0 : o = ""
  · simp [pexecStep, h0]
  · by_cases hm : firstMatch fil o
    · match fil with
      | [] => simp [firstMatch] at hm
      | f :: fs =>
        unfold pexecStep
        simp [h0, hm, String.toList] at h ⊢
        simp [h]
    · rw [pexecStep_unmatched fil s o h0 (by simpa using hm)]
      have h' : searchSummary o.data = none := by simpa [String.toList] using h
      simp [logAfterStep, String.toList, h']

lemma pexecLoop_log_frame (fil : List (String → Bool)) (ec : Int) :
    ∀ (sched : List Delivery) (s : RunState),
      (∀ d ∈ sched, searchSummary d.out.toList = none) →
      (pexecLoop fil ec sched s).fst.log = s.log := by
  intro sched
  induction sched with
  | nil => intro s _; simp [pexecLoop]
  | cons d rest ih =>
    intro s h
    by_cases hbr : d.out = "" ∧ d.exited = true
    · simp [pexecLoop, hbr]
    · rw [pexecLoop]
      simp only [hbr, if_false]
      rw [ih _ fun d' hd' => h d' (List.mem_cons_of_mem _ hd')]
      exact pexecStep_log_frame fil s d.out (h d (List.mem_cons_self _ _))

/-- C7: if no captured chunk matches the summary pattern during a run,
the file `suppresed-warnings.log` is never created or overwritten —
its modelled state stays `none` — even when lines were suppressed. -/
theorem pexec_no_summary_no_log (fil : List (String → Bool)) (ec : Int)
    (sched : List Delivery)
    (h : ∀ d ∈ sched, searchSummary d.out.toList = none) :
    (pexec fil ec sched).fst.log = none :=
  pexecLoop_log_frame fil ec sched initState h

/-- Witness for C7: a run that suppresses one line but sees no summary
line leaves the log untouched while the buffer holds the line. -/
theorem pexec_no_summary_no_log_witness :
    (pexec [reSearchLit "noise"] 0 [⟨"noise a\n", "", false⟩, ⟨"", "", true⟩]).fst.log = none ∧
      (pexec [reSearchLit "noise"] 0
          [⟨"noise a\n", "", false⟩, ⟨"", "", true⟩]).fst.supp_warn = ["noise a\n"] :=
  ⟨pexec_no_summary_no_log _ _ _ (by decide), by decide⟩

lemma consoleStep (fil : List (String → Bool)) (s : RunState) (o : String)
    (t : Bool) (L : List (Bool × String)) (h0 : o ≠ "") :
    (pexecStep fil s o).console ++
        (procLines fil (pexecStep fil s o).supp_warn.length L).map Prod.snd =
      s.console ++ (procLines fil s.supp_warn.length ((t, o) :: L)).map Prod.snd := by
  by_cases hm : firstMatch fil o
  · obtain ⟨hsupp, hcons⟩ := pexecStep_matched fil s o h0 hm
    rw [hcons, hsupp]
    simp [procLines, hm]
  · have hm' : firstMatch fil o = false := by simpa using hm
    rw [pexecStep_unmatched fil s o h0 hm']
    simp [procLines, hm']

lemma pexecLoop_console (fil : List (String → Bool)) (ec : Int) :
    ∀ (sched : List Delivery) (s : RunState),
      (∀ d ∈ sched, d.so = "" ∨ d.se = "") →
      (∀ d ∈ sched, ¬(d.out = "" ∧ d.exited = true)) →
      (pexecLoop fil ec sched s).fst.console =
        s.console ++ (procLines fil s.supp_warn.length (taggedLines sched)).map Prod.snd := by
  intro sched
  induction sched with
  | nil => intro s _ _; simp [pexecLoop, taggedLines, procLines]
  | cons d rest ih =>
    intro s h1 h2
    have h1d := h1 d (List.mem_cons_self _ _)
    have h2d := h2 d (List.mem_cons_self _ _)
    have h1r := fun d' hd' => h1 d' (List.mem_cons_of_mem _ hd')
    have h2r := fun d' hd' => h2 d' (List.mem_cons_of_mem _ hd')
    rw [pexecLoop]
    simp only [h2d, if_false]
    by_cases hso0 : d.so = ""
    · by_cases hse0 : d.se = ""
      · have hout : d.out = "" := by simp [Delivery.out, hso0, hse0]
        rw [hout, pexecStep_empty_out, ih s h1r h2r]
        simp [taggedLines, hso0, hse0]
      · have hout : d.out = d.se := by simp [Delivery.out, hso0]
        have htag : taggedLines (d :: rest) = (false, d.se) :: taggedLines rest := by
          simp [taggedLines, hso0, hse0]
        rw [ih (pexecStep fil s d.out) h1r h2r, htag, hout,
          consoleStep fil s d.se false (taggedLines rest) hse0]
    · have hse0 : d.se = "" := by
        rcases h1d with h | h
        · exact absurd h hso0
        · exact h
      have hout : d.out = d.so := by simp [Delivery.out, hse0]
      have htag : taggedLines (d :: rest) = (true, d.so) :: taggedLines rest := by
        simp [taggedLines, hso0]
      rw [ih (pexecStep fil s d.out) h1r h2r, htag, hout,
        consoleStep fil s d.so true (taggedLines rest) hso0]

lemma procLines_fst (fil : List (String → Bool)) :
    ∀ (L : List (Bool × String)) (k : Nat),
      (procLines fil k L).map Prod.fst =
        (L.filter fun p => !(firstMatch fil p.2)).map Prod.fst := by
  intro L
  induction L with
  | nil => intro k; rfl
  | cons p rest ih =>
    intro k
    rcases p with ⟨t, o⟩
    by_cases hm : firstMatch fil o <;> simp [procLines, hm, ih]

/-- C5 (amended): for a schedule in which every select iteration reads
from at most one stream and the break condition holds nowhere, the
console output is exactly one record per non-suppressed captured line,
in delivery order (`procLines` is a single left-to-right pass), and
the origin tags of the console records are the origin tags of the
non-suppressed lines in delivery order — so the relative order of each
individual stream's lines is preserved.  When an iteration reads both
streams at once the two lines are concatenated and filtered as a
single unit (see the counterexample). -/
theorem pexec_emission_order (fil : List (String → Bool)) (ec : Int)
    (sched : List Delivery)
    (h1 : ∀ d ∈ sched, d.so = "" ∨ d.se = "")
    (h2 : ∀ d ∈ sched, ¬(d.out = "" ∧ d.exited = true)) :
    (pexec fil ec sched).fst.console =
        (procLines fil 0 (taggedLines sched)).map Prod.snd ∧
      (procLines fil 0 (taggedLines sched)).map Prod.fst =
        ((taggedLines sched).filter fun p => !(firstMatch fil p.2)).map Prod.fst := by
  constructor
  · have h := pexecLoop_console fil ec sched initState h1 h2
    rw [pexec, h]
    simp [initState]
  · exact procLines_fst fil (taggedLines sched) 0

/-- Witness for C5: two stdout lines and one stderr line interleaved
with a suppressed noise line are all emitted, in delivery order. -/
theorem pexec_emission_order_witness :
    (pexec [reSearchLit "noise"] 0
        [⟨"out1\n", "", false⟩, ⟨"", "err1\n", false⟩,
         ⟨"noise\n", "", false⟩, ⟨"out2\n", "", false⟩]).fst.console =
      ["out1", "err1", "out2"] := by
  have h := pexec_emission_order [reSearchLit "noise"] 0
    [⟨"out1\n", "", false⟩, ⟨"", "err1\n", false⟩,
     ⟨"noise\n", "", false⟩, ⟨"out2\n", "", false⟩]
    (by decide) (by decide)
  exact h.1.trans (by decide)

/-- C5 counterexample: when stdout and stderr are ready in the same
select iteration, lines 45-49 concatenate both `readline` results into
one `out`, which is filtered as a unit: the stderr line `bar` matches
no suppression pattern, yet nothing is emitted for it — the glued
chunk `foo\nbar\n` matched the pattern `foo` and was suppressed whole. -/
theorem pexec_emission_cex :
    (pexec [reSearchLit "foo"] 0
        [⟨"foo\n", "bar\n", false⟩, ⟨"", "", true⟩]).fst.console = [] ∧
      reSearchLit "foo" "bar\n" = false ∧
      (pexec [reSearchLit "foo"] 0
          [⟨"foo\n", "bar\n", false⟩, ⟨"", "", true⟩]).fst.supp_warn = ["foo\nbar\n"] :=
  ⟨by decide, by decide, by decide⟩

/-- `true` exactly on the abnormal-termination result of the modelled
`read_src_list`. -/
def isErrorResult : Except (List String) (List String) → Bool
  | .error _ => true
  | .ok _ => false

/-- C9: if some source entry references a substitution parameter
(`$name`) that is missing from the configuration's parameters, the
sources loop prints the two error lines and terminates abnormally
instead of returning a file list. -/
theorem read_src_list_missing_param (sources : List String)
    (params : List (String × String)) (path : String)
    (h : ∃ i ∈ sources, ∃ n, searchDollar i.toList = some n ∧ params.lookup n = none) :
    isErrorResult (read_src_list sources params path) = true := by
  induction sources with
  | nil => simp at h
  | cons i rest ih =>
    rcases h with ⟨j, hj, n, hsd, hlk⟩
    rcases List.mem_cons.mp hj with rfl | hjr
    · have hsd' : searchDollar j.data = some n := by simpa [String.toList] using hsd
      simp only [read_src_list]
      simp [hsd', hlk, isErrorResult]
    · have hrest := ih ⟨j, hjr, n, hsd, hlk⟩
      simp only [read_src_list]
      rcases hd : searchDollar i.data with _ | fpath
      · rcases hres : read_src_list rest params path with e | fs
        · simp [hd, hres, isErrorResult]
        · rw [hres] at hrest
          simp [isErrorResult] at hrest
      · rcases hl : params.lookup fpath with _ | v
        · simp [hd, hl, isErrorResult]
        · by_cases hv : v = ""
          · simpa [hd, hl, hv] using hrest
          · rcases hres : read_src_list rest params path with e | fs
            · simp [hd, hl, hv, hres, isErrorResult]
            · rw [hres] at hrest
              simp [isErrorResult] at hrest

/-- Witness for C9: the entry `$RTL/top.v` references the parameter
`RTL`, absent from the parameters; the loop returns the two printed
error lines as an abnormal termination, not a file list. -/
theorem read_src_list_missing_param_witness :
    isErrorResult (read_src_list ["src/a.v", "$RTL/top.v"] [("LIB", "lib")] "cfg.yml") = true ∧
      read_src_list ["src/a.v", "$RTL/top.v"] [("LIB", "lib")] "cfg.yml" =
        .error ["E: undefined substitution parameter \"RTL\"", "    File: cfg.yml"] :=
  ⟨read_src_list_missing_param _ _ _
      ⟨"$RTL/top.v", by decide, "RTL", by decide, by decide⟩,
    by rfl⟩
